import Mathlib

/-!
# Verification of the `dtop` telemetry aggregation and view engine

Shallow embedding, in Lean 4, of the core of `amir20/dtop` (Go):

* the stats smoothing applied on each `tickMsg` in `internal/ui/update.go`,
* the container store and projection (`updateInternalRows`, the `containers`
  message handler) in `internal/ui/update.go`,
* the multi-host Docker client (`NewMultiClient`, `WatchContainers`) in
  `internal/docker/client.go`,
* the generic table widget (`internal/ui/components/table/table.go`),
* the log streamer (`StreamLogs`) and the log page model
  (`internal/ui/pages/log/model.go`).

Modelling conventions:

* Go `uint64` values are `Nat` together with explicit `% 2^64` where Go
  arithmetic can wrap (`u64sub`).
* Go `float64` arithmetic is modelled exactly over `ℚ`; the conversion
  `uint64(x)` of a non-negative float is `truncU64` (floor).
* `time.Time` instants are `Nat` nanoseconds since the epoch, with `0`
  standing for Go's zero `time.Time` (`IsZero`).
* Go strings are Lean `String`s; Go's byte-wise `<` on strings is `goStrLt`
  (identical on the ASCII data that container names and IDs consist of).
-/

/-- Lexicographic comparison of character lists by code point, modelling Go's
byte-wise `<` on (ASCII) strings. -/
def lexLtCh : List Char → List Char → Bool
  | [], [] => false
  | [], _ :: _ => true
  | _ :: _, [] => false
  | a :: as, b :: bs =>
    if a.toNat < b.toNat then true
    else if b.toNat < a.toNat then false
    else lexLtCh as bs

/-- Go's `<` on strings (byte-wise lexicographic; code points coincide with
bytes on ASCII). -/
def goStrLt (a b : String) : Bool := lexLtCh a.data b.data

/-- `2^64`, the modulus of Go `uint64` arithmetic. -/
def u64Mod : Nat := 18446744073709551616

/-- Go `uint64` subtraction `a - b`: wraps modulo `2^64`. -/
def u64sub (a b : Nat) : Nat := (a + (u64Mod - b % u64Mod)) % u64Mod

/-- Go conversion `uint64(x)` of a non-negative `float64`, which truncates the
fractional part (floor for non-negative values). -/
def truncU64 (q : ℚ) : Nat := (⌊q⌋).toNat

/-! ## Data model (`internal/docker/types.go`, `internal/ui/types.go`) -/

/-- `docker.Container` from `internal/docker/types.go` (the `Labels` map is
omitted: no claim reads it). Instants are nanoseconds since epoch. -/
structure Container where
  ID : String
  Name : String
  Image : String
  Command : String
  CreatedAt : Nat
  StartedAt : Nat
  FinishedAt : Nat
  State : String
  Health : String
  MemoryLimit : Nat
  CPULimit : ℚ
  Dozzle : String
  Host : String

/-- `docker.ContainerStat` as consumed by the `tickMsg` handler of
`internal/ui/update.go`: cumulative network counters plus a sample time.
There is no host field: a stat identifies its container by `ID` alone. -/
structure ContainerStat where
  ID : String
  CPUPercent : ℚ
  MemoryPercent : ℚ
  MemoryUsage : ℚ
  TotalNetworkReceived : Nat
  TotalNetworkTransmitted : Nat
  Time : Nat

/-- `rowStats` from `internal/ui/types.go`: the published per-row metrics plus
the raw baselines used for the next delta. -/
structure RowStats where
  cpuPercent : ℚ
  memPercent : ℚ
  lastUpdate : Nat
  totalBytesReceived : Nat
  totalBytesSent : Nat
  bytesReceivedPerSecond : Nat
  bytesSentPerSecond : Nat

/-- `row` from `internal/ui/types.go` (the render cache `rowCache` is omitted:
no claim reads it). -/
structure row where
  container : Container
  stats : RowStats

/-- `newRow` from `internal/ui/types.go`: a fresh row has zeroed stats. -/
def newRow (c : Container) : row :=
  { container := c
    stats := { cpuPercent := 0, memPercent := 0, lastUpdate := 0,
               totalBytesReceived := 0, totalBytesSent := 0,
               bytesReceivedPerSecond := 0, bytesSentPerSecond := 0 } }

/-! ## Stats smoothing (`internal/ui/update.go`, `tickMsg` case)

The Go code, for each pending stat:

```go
row.stats.cpuPercent = stat.CPUPercent / 100
row.stats.memPercent = stat.MemoryPercent / 100
timeDelta := uint64(stat.Time.Sub(row.stats.lastUpdate).Seconds())
if timeDelta > 0 && !row.stats.lastUpdate.IsZero() {
    currentBytesReceivedPerSecond := (stat.TotalNetworkReceived - row.stats.totalBytesReceived) / timeDelta
    currentBytesSentPerSecond := (stat.TotalNetworkTransmitted - row.stats.totalBytesSent) / timeDelta
    alpha := 0.75
    row.stats.bytesReceivedPerSecond = uint64(alpha*float64(currentBytesReceivedPerSecond) + (1-alpha)*float64(row.stats.bytesReceivedPerSecond))
    row.stats.bytesSentPerSecond = uint64(alpha*float64(currentBytesSentPerSecond) + (1-alpha)*float64(row.stats.bytesSentPerSecond))
}
row.stats.totalBytesReceived = stat.TotalNetworkReceived
row.stats.totalBytesSent = stat.TotalNetworkTransmitted
row.stats.lastUpdate = stat.Time
```

`float64` rounding is modelled as exact `ℚ` arithmetic. -/

/-- The whole seconds elapsed between the stored baseline and the new sample:
`uint64(stat.Time.Sub(row.stats.lastUpdate).Seconds())` truncates to whole
seconds. (Samples never travel back in time; `Nat` subtraction yields `0`
there, where the Go float conversion is implementation-defined.) -/
def timeDelta (rs : RowStats) (stat : ContainerStat) : Nat :=
  (stat.Time - rs.lastUpdate) / 1000000000

/-- `currentBytesReceivedPerSecond`: a `uint64` difference of cumulative
counters (wrapping!) divided by the time delta. -/
def instRxRate (rs : RowStats) (stat : ContainerStat) : Nat :=
  u64sub stat.TotalNetworkReceived rs.totalBytesReceived / timeDelta rs stat

/-- `currentBytesSentPerSecond`, analogous to `instRxRate`. -/
def instTxRate (rs : RowStats) (stat : ContainerStat) : Nat :=
  u64sub stat.TotalNetworkTransmitted rs.totalBytesSent / timeDelta rs stat

/-- One stat applied to a row's stats: the `tickMsg` body from
`internal/ui/update.go` quoted above. -/
def updateRowStats (rs : RowStats) (stat : ContainerStat) : RowStats :=
  let rs1 := { rs with cpuPercent := stat.CPUPercent / 100,
                       memPercent := stat.MemoryPercent / 100 }
  let rs2 :=
    if 0 < timeDelta rs stat ∧ rs.lastUpdate ≠ 0 then
      let alpha : ℚ := 75 / 100
      { rs1 with
        bytesReceivedPerSecond :=
          truncU64 (alpha * (instRxRate rs stat : ℚ) +
            (1 - alpha) * (rs.bytesReceivedPerSecond : ℚ))
        bytesSentPerSecond :=
          truncU64 (alpha * (instTxRate rs stat : ℚ) +
            (1 - alpha) * (rs.bytesSentPerSecond : ℚ)) }
    else rs1
  { rs2 with totalBytesReceived := stat.TotalNetworkReceived,
             totalBytesSent := stat.TotalNetworkTransmitted,
             lastUpdate := stat.Time }

/-! ### Concrete inputs used by the theorems about the smoother -/

/-- Stored stats of a row that has already seen a sample at t = 1 s with
baselines rx = 1000, tx = 2000 and published rates 100 B/s and 40 B/s. -/
def rsPrev : RowStats :=
  { cpuPercent := 1/2, memPercent := 1/4, lastUpdate := 1000000000,
    totalBytesReceived := 1000, totalBytesSent := 2000,
    bytesReceivedPerSecond := 100, bytesSentPerSecond := 40 }

/-- A later sample at t = 3 s with grown counters. -/
def statGrow : ContainerStat :=
  { ID := "abcdef123456", CPUPercent := 10, MemoryPercent := 30,
    MemoryUsage := 0, TotalNetworkReceived := 3000,
    TotalNetworkTransmitted := 2000, Time := 3000000000 }

/-- A later sample at t = 2 s whose receive counter regressed from 1000 to
500 (counter reset). -/
def statReset : ContainerStat :=
  { ID := "abcdef123456", CPUPercent := 10, MemoryPercent := 30,
    MemoryUsage := 0, TotalNetworkReceived := 500,
    TotalNetworkTransmitted := 2500, Time := 2000000000 }

/-! ## The container store (`internal/ui/update.go`, `containers` and
`tickMsg` cases)

The model keeps `rows map[string]row` — a map keyed by the bare 12-character
container ID (`m.rows[c.ID] = row`). The map is modelled as an association
list with Go map insert semantics (replace the existing key in place,
otherwise append). -/

/-- Go map assignment `m[k] = v`: replace the entry for `k` when present,
otherwise add one. -/
def mapAssign : List (String × row) → String → row → List (String × row)
  | [], k, v => [(k, v)]
  | (k', v') :: rest, k, v =>
    if k' = k then (k, v) :: rest else (k', v') :: mapAssign rest k v

/-- The `containers` message handler of `internal/ui/update.go`:
`for _, c := range msg { m.rows[c.ID] = newRow(c) }`. -/
def applyContainers (rows : List (String × row)) (msg : List Container) :
    List (String × row) :=
  msg.foldl (fun acc c => mapAssign acc c.ID (newRow c)) rows

/-- One pending stat drained in the `tickMsg` case:
`if row, exists := m.rows[stat.ID]; exists { ...mutate row.stats... }`.
The row's `stats` is a pointer, so the mutation lands in the map entry whose
key equals `stat.ID` (host is never consulted — stats carry no host). -/
def processTickStat (rows : List (String × row)) (stat : ContainerStat) :
    List (String × row) :=
  if (rows.lookup stat.ID).isSome then
    rows.map (fun kv =>
      if kv.1 = stat.ID then
        (kv.1, { kv.2 with stats := updateRowStats kv.2.stats stat })
      else kv)
  else rows

/-! ## The projection (`updateInternalRows` in `internal/ui/update.go`)

```go
rows := make([]row, 0, len(m.rows))
for _, r := range m.rows {
    if m.showAll || r.container.State == "running" { rows = append(rows, r) }
}
var flipDesc = func(descSort bool) bool {
    if m.sortAsc { return !descSort }
    return descSort
}
sort.Slice(rows, func(i, j int) bool {
    switch m.sortBy {
    case config.SortByName:
        return flipDesc(rows[i].container.Name+rows[i].container.ID < rows[j].container.Name+rows[j].container.ID)
    case config.SortByStatus:
        return flipDesc(rows[i].container.CreatedAt.After(rows[j].container.CreatedAt))
    default: panic("unknown sort type")
    }
})
```

`sort.Slice` guarantees exactly that the result is a permutation of the
input with no inversion of the comparator; it is modelled by
`List.insertionSort` with the complement relation `rowSortLe a b :=
¬ less b a`, which realises that postcondition. -/

/-- `config.SortField` (`config/config.go`): the two sort modes wired into
`updateInternalRows`. -/
inductive SortField where
  | name : SortField
  | status : SortField

/-- `flipDesc` from `updateInternalRows`. -/
def flipDesc (sortAsc : Bool) (descSort : Bool) : Bool :=
  if sortAsc then !descSort else descSort

/-- The `sort.Slice` comparator of `updateInternalRows`: it reads only the
container's name+ID (name sort) or creation instant (status sort) — never
the host. -/
def lessRow (sb : SortField) (sortAsc : Bool) (a b : row) : Bool :=
  match sb with
  | .name =>
      flipDesc sortAsc
        (goStrLt (a.container.Name ++ a.container.ID)
          (b.container.Name ++ b.container.ID))
  | .status =>
      flipDesc sortAsc (decide (b.container.CreatedAt < a.container.CreatedAt))

/-- The non-strict companion of `lessRow`: `a` may be placed before `b`
exactly when `b` is not strictly before `a` (the `sort.Slice`
postcondition). -/
def rowSortLe (sb : SortField) (sortAsc : Bool) (a b : row) : Prop :=
  lessRow sb sortAsc b a = false

instance (sb : SortField) (sortAsc : Bool) : DecidableRel (rowSortLe sb sortAsc) :=
  fun a b => instDecidableEqBool (lessRow sb sortAsc b a) false

/-- The filter of `updateInternalRows`: keep a row iff `showAll` or the
container is running. -/
def keepRow (showAll : Bool) (r : row) : Bool :=
  showAll || r.container.State == "running"

/-- `updateInternalRows` from `internal/ui/update.go`: filter the store's
rows, then sort with the comparator above. -/
def updateInternalRows (rows : List row) (sb : SortField)
    (sortAsc showAll : Bool) : List row :=
  List.insertionSort (rowSortLe sb sortAsc) (rows.filter (keepRow showAll))

/-- Whether all rows sharing a host are contiguous in the list: walking the
list, a host change may never return to a host already seen. -/
def hostsGroupedAux : String → List String → List row → Bool
  | _, _, [] => true
  | cur, seen, r :: rest =>
    if r.container.Host == cur then hostsGroupedAux cur seen rest
    else if seen.contains r.container.Host then false
    else hostsGroupedAux r.container.Host (cur :: seen) rest

/-- All rows of a common host appear contiguously. -/
def hostsGrouped : List row → Bool
  | [] => true
  | r :: rest => hostsGroupedAux r.container.Host [] rest

/-- Replace a row's host (used to state that the projection never reads the
host field). -/
def retagHost (f : String → String) (r : row) : row :=
  { r with container := { r.container with Host := f r.container.Host } }

/-! ## The table widget (`internal/ui/components/table/table.go`) -/

/-- `clamp` from `table.go`: `min(max(v, low), high)` on Go `int`s. -/
def clamp (v low high : Int) : Int := min (max v low) high

/-- The cursor/rows state of `table.Model[T]` (viewport rendering state is
not modelled; no claim reads it). -/
structure TableModel (α : Type) where
  rows : List α
  cursor : Int

/-- `Model.SetCursor`: `m.cursor = clamp(n, 0, len(m.rows)-1)`. -/
def tblSetCursor {α : Type} (m : TableModel α) (n : Int) : TableModel α :=
  { m with cursor := clamp n 0 ((m.rows.length : Int) - 1) }

/-- `Model.MoveUp`: `m.cursor = clamp(m.cursor-n, 0, len(m.rows)-1)`. -/
def tblMoveUp {α : Type} (m : TableModel α) (n : Int) : TableModel α :=
  { m with cursor := clamp (m.cursor - n) 0 ((m.rows.length : Int) - 1) }

/-- `Model.MoveDown`: `m.cursor = clamp(m.cursor+n, 0, len(m.rows)-1)`. -/
def tblMoveDown {α : Type} (m : TableModel α) (n : Int) : TableModel α :=
  { m with cursor := clamp (m.cursor + n) 0 ((m.rows.length : Int) - 1) }

/-- `Model.SetRows`: `m.rows = r` — the cursor is left untouched. -/
def tblSetRows {α : Type} (m : TableModel α) (r : List α) : TableModel α :=
  { m with rows := r }

/-- The safety condition for indexing `m.table.Rows()[m.table.Cursor()]`
(the `Open` key handler in `internal/ui/update.go`): in `[0, len)` for a
non-empty row list, `-1` when empty. -/
def cursorOK {α : Type} (m : TableModel α) : Prop :=
  if m.rows.length = 0 then m.cursor = -1
  else 0 ≤ m.cursor ∧ m.cursor < (m.rows.length : Int)

instance {α : Type} (m : TableModel α) : Decidable (cursorOK m) :=
  show Decidable (if m.rows.length = 0 then m.cursor = -1
    else 0 ≤ m.cursor ∧ m.cursor < (m.rows.length : Int)) from inferInstance

/-! ## The multi-host Docker client (`internal/docker/client.go`)

The producer side performs I/O; its external calls (ping, container list,
inspect, events) are modelled as oracle fields of `HostSpec`, and a Go
`panic(err)` as the `GoResult.panicked` outcome. -/

/-- Outcome of running a piece of Go code that may `panic(err)`. -/
inductive GoResult (α : Type) where
  | ok : α → GoResult α
  | panicked : String → GoResult α

/-- A configured host together with the outcomes of the engine calls made
against it. -/
structure HostSpec where
  host : String
  dozzle : String
  pingOk : Bool
  pingErr : String
  listOk : Bool
  listErr : String
  containerIDs : List String
  inspectResult : String → Except String Container

/-- `NewMultiClient` from `internal/docker/client.go`: pings every host with
a 10 s deadline and `panic(err)`s on the first failure; on success the
client simply wraps the host list. -/
def NewMultiClient (hosts : List HostSpec) : GoResult (List HostSpec) :=
  match hosts.find? (fun h => !h.pingOk) with
  | some h => .panicked h.pingErr
  | none => .ok hosts

/-- The inspect loop of the `WatchContainers` snapshot phase:
`panic(err)` on any single inspection failure. -/
def inspectAll (f : String → Except String Container) :
    List String → GoResult (List Container)
  | [] => .ok []
  | id :: rest =>
    match f id with
    | .error e => .panicked e
    | .ok c =>
      match inspectAll f rest with
      | .panicked e => .panicked e
      | .ok cs => .ok (c :: cs)

/-- The snapshot phase of a host's `WatchContainers` goroutine: list all
containers (`panic(err)` on failure), inspect each (`panic(err)` on
failure), emit the batch. -/
def watchContainersSnapshot (h : HostSpec) : GoResult (List Container) :=
  if h.listOk then inspectAll h.inspectResult h.containerIDs
  else .panicked h.listErr

/-- What the event loop of `WatchContainers` receives: either a value on the
error channel of the events subscription, or a container event carrying an
actor ID. -/
inductive EventsMsg where
  | errMsg : String → EventsMsg
  | containerEvent : String → EventsMsg

/-- One iteration of the `WatchContainers` event loop: an error-channel
message is `panic(err)`; a container event with a non-empty actor ID is
inspected, and an inspection error is skipped (`continue`), otherwise the
container is emitted. -/
def watchContainersEventStep (h : HostSpec) (m : EventsMsg) :
    GoResult (Option Container) :=
  match m with
  | .errMsg e => .panicked e
  | .containerEvent actorID =>
    if 0 < actorID.length then
      match h.inspectResult actorID with
      | .error _ => .ok none
      | .ok c => .ok (some c)
    else .ok none

/-! ## The log streamer (`StreamLogs` in `internal/docker`)

`StreamLogs` opens the stream with fixed options and processes each scanner
line (a byte sequence without the trailing newline, modelled as
`List Char` over code points — identical to bytes on the ASCII data
involved). -/

/-- `container.LogsOptions` as filled in by `StreamLogs`. -/
structure LogsOptions where
  ShowStdout : Bool
  ShowStderr : Bool
  Follow : Bool
  Timestamps : Bool
  Tail : String

/-- The options literal of `StreamLogs`. -/
def streamLogsOptions : LogsOptions :=
  { ShowStdout := true, ShowStderr := true, Follow := true,
    Timestamps := true, Tail := "100" }

/-- A parsed RFC 3339 instant (the result of Go's
`time.Parse(time.RFC3339Nano, s)`), kept as its components. -/
structure ParsedTime where
  year : Nat
  month : Nat
  day : Nat
  hour : Nat
  minute : Nat
  second : Nat
  nanos : Nat
  offsetMinutes : Int
deriving DecidableEq, Repr

/-- `docker.LogEntry` (see `internal/docker/types.go` era of `StreamLogs`):
`Timestamp = none` models Go's zero `time.Time` left when no timestamp was
parsed. -/
structure LogEntry where
  ContainerID : String
  Message : List Char
  Timestamp : Option ParsedTime
  Stream : String
deriving DecidableEq, Repr

/-- Read exactly `n` decimal digits, returning their value and the rest. -/
def parseNDigits : Nat → List Char → Option (Nat × List Char)
  | 0, s => some (0, s)
  | _ + 1, [] => none
  | n + 1, c :: s =>
    if c.isDigit then
      match parseNDigits n s with
      | some (v, rest) => some ((c.toNat - 48) * 10 ^ n + v, rest)
      | none => none
    else none

/-- Expect one specific character. -/
def expectCh (c : Char) : List Char → Option (List Char)
  | [] => none
  | c' :: s => if c' = c then some s else none

/-- Parse an optional fractional-seconds field `.d{1..9}`, returning the
value in nanoseconds. -/
def parseFraction : List Char → Nat × List Char
  | '.' :: s =>
    let digits := s.takeWhile Char.isDigit
    if 0 < digits.length ∧ digits.length ≤ 9 then
      (digits.foldl (fun acc c => acc * 10 + (c.toNat - 48)) 0 *
        10 ^ (9 - digits.length), s.dropWhile Char.isDigit)
    else (0, '.' :: s)
  | s => (0, s)

/-- Parse the timezone suffix: `Z` or `±hh:mm`, as minutes east of UTC. -/
def parseOffset : List Char → Option (Int × List Char)
  | 'Z' :: s => some (0, s)
  | '+' :: s =>
    match parseNDigits 2 s with
    | some (hh, s1) =>
      match expectCh ':' s1 with
      | some s2 =>
        match parseNDigits 2 s2 with
        | some (mm, s3) =>
          if hh ≤ 23 ∧ mm ≤ 59 then some ((hh * 60 + mm : Nat), s3) else none
        | none => none
      | none => none
    | none => none
  | '-' :: s =>
    match parseNDigits 2 s with
    | some (hh, s1) =>
      match expectCh ':' s1 with
      | some s2 =>
        match parseNDigits 2 s2 with
        | some (mm, s3) =>
          if hh ≤ 23 ∧ mm ≤ 59 then some (-((hh * 60 + mm : Nat) : Int), s3)
          else none
        | none => none
      | none => none
    | none => none
  | _ => none

/-- Gregorian leap year rule. -/
def isLeapYear (y : Nat) : Bool :=
  (y % 4 == 0 && y % 100 != 0) || (y % 400 == 0)

/-- Days in a month (Gregorian). -/
def daysInMonth (y m : Nat) : Nat :=
  if m = 2 then (if isLeapYear y then 29 else 28)
  else if m = 4 ∨ m = 6 ∨ m = 9 ∨ m = 11 then 30
  else 31

/-- Modelled from the library interface: Go's
`time.Parse(time.RFC3339Nano, s)` — layout
`2006-01-02T15:04:05.999999999Z07:00` with optional fraction, validating
calendar and clock ranges; `none` models a parse error. -/
def goParseRFC3339Nano (s : List Char) : Option ParsedTime :=
  match parseNDigits 4 s with
  | none => none
  | some (year, s1) =>
    match expectCh '-' s1 with
    | none => none
    | some s2 =>
      match parseNDigits 2 s2 with
      | none => none
      | some (month, s3) =>
        match expectCh '-' s3 with
        | none => none
        | some s4 =>
          match parseNDigits 2 s4 with
          | none => none
          | some (day, s5) =>
            match expectCh 'T' s5 with
            | none => none
            | some s6 =>
              match parseNDigits 2 s6 with
              | none => none
              | some (hour, s7) =>
                match expectCh ':' s7 with
                | none => none
                | some s8 =>
                  match parseNDigits 2 s8 with
                  | none => none
                  | some (minute, s9) =>
                    match expectCh ':' s9 with
                    | none => none
                    | some s10 =>
                      match parseNDigits 2 s10 with
                      | none => none
                      | some (second, s11) =>
                        match parseFraction s11 with
                        | (nanos, s12) =>
                          match parseOffset s12 with
                          | none => none
                          | some (off, s13) =>
                            if s13 = [] ∧ 1 ≤ month ∧ month ≤ 12 ∧
                                1 ≤ day ∧ day ≤ daysInMonth year month ∧
                                hour ≤ 23 ∧ minute ≤ 59 ∧ second ≤ 59 then
                              some { year := year, month := month, day := day,
                                     hour := hour, minute := minute,
                                     second := second, nanos := nanos,
                                     offsetMinutes := off }
                            else none

/-- The timestamp block of `StreamLogs`: attempted only when the demuxed
message is longer than 30 bytes; looks for the first space
(`strings.IndexByte`), requires it at a positive index, and on a successful
parse stores the timestamp and strips it (plus the space) from the
message. -/
def parseLineTimestamp (message : List Char) :
    Option ParsedTime × List Char :=
  if 30 < message.length then
    match message.findIdx? (fun c => c = ' ') with
    | some i =>
      if 0 < i then
        match goParseRFC3339Nano (message.take i) with
        | some t => (some t, message.drop (i + 1))
        | none => (none, message)
      else (none, message)
    | none => (none, message)
  else (none, message)

/-- The demux block of `StreamLogs`: when the line is longer than 8 bytes
and starts with stream byte `1` or `2`, pick the stream and strip the
8-byte header; otherwise the whole line is the message on stdout. -/
def demuxLine (line : List Char) : String × List Char :=
  if 8 < line.length then
    match line.head? with
    | some c =>
      if c.toNat = 1 then ("stdout", line.drop 8)
      else if c.toNat = 2 then ("stderr", line.drop 8)
      else ("stdout", line)
    | none => ("stdout", line)
  else ("stdout", line)

/-- One scanner line processed by `StreamLogs`: empty lines are skipped
(`continue`), otherwise demux, then the timestamp block, then emit. -/
def streamLogsLine (cid : String) (line : List Char) : Option LogEntry :=
  if line.length = 0 then none
  else
    match demuxLine line with
    | (stream, message) =>
      match parseLineTimestamp message with
      | (timestamp, message2) =>
        some { ContainerID := cid, Message := message2,
               Timestamp := timestamp, Stream := stream }

/-! ## The log page (`internal/ui/pages/log/model.go`) and its viewport

The `bubbles` viewport is an external widget; it is modelled through its
interface: `AtBottom`, `SetContent`, `GotoBottom`, `SetYOffset` with the
clamping the widget documents. Content is kept as its list of lines (each
scanner-produced log message is newline-free, so the model's
`WriteString("\n"); WriteString(msg)` appends exactly one line). -/

/-- The scroll state of a `viewport.Model`. -/
structure GoViewport where
  height : Nat
  yOffset : Nat
  lineCount : Nat

/-- `viewport.maxYOffset`: the largest useful offset. -/
def maxYOffset (v : GoViewport) : Nat := v.lineCount - v.height

/-- `viewport.AtBottom`: `m.YOffset >= m.maxYOffset()`. -/
def atBottom (v : GoViewport) : Bool := decide (maxYOffset v ≤ v.yOffset)

/-- `viewport.SetYOffset`: clamps into `[0, maxYOffset]`. -/
def setYOffset (v : GoViewport) (n : Nat) : GoViewport :=
  { v with yOffset := min n (maxYOffset v) }

/-- `viewport.GotoBottom`. -/
def gotoBottom (v : GoViewport) : GoViewport := setYOffset v (maxYOffset v)

/-- `viewport.SetContent` with the new number of lines: re-clamps the offset
only when it fell beyond the end of the new content. -/
def vpSetContent (v : GoViewport) (newCount : Nat) : GoViewport :=
  if newCount - 1 < v.yOffset then gotoBottom { v with lineCount := newCount }
  else { v with lineCount := newCount }

/-- `viewport.LineUp` (manual scrolling): move the offset up by `n`. -/
def vpLineUp (v : GoViewport) (n : Nat) : GoViewport :=
  setYOffset v (v.yOffset - n)

/-- The log page model: the accumulated content (as lines) and the
viewport. -/
structure LogPageModel where
  content : List String
  viewport : GoViewport

/-- The `docker.LogEntry` case of the log page `Update`
(`internal/ui/pages/log/model.go`): remember whether the viewport was at
the bottom, append the message to the content, reset the viewport content,
and jump to the bottom only if it was at the bottom before. -/
def logPageUpdate (m : LogPageModel) (msg : String) : LogPageModel :=
  let wasAtBottom := atBottom m.viewport
  let content := m.content ++ [msg]
  let vp1 := vpSetContent m.viewport content.length
  let vp2 := if wasAtBottom then gotoBottom vp1 else vp1
  { content := content, viewport := vp2 }

/-! ### Concrete instances used by the remaining theorems -/

/-- A container with only the claim-relevant fields populated. -/
def mkContainer (id name state host : String) (createdAt : Nat) : Container :=
  { ID := id, Name := name, Image := "", Command := "", CreatedAt := createdAt,
    StartedAt := 0, FinishedAt := 0, State := state, Health := "",
    MemoryLimit := 0, CPULimit := 0, Dozzle := "", Host := host }

/-- A host whose 10 s health check fails. -/
def hostUnreachable : HostSpec :=
  { host := "tcp://dead:1", dozzle := "", pingOk := false,
    pingErr := "connection refused", listOk := true, listErr := "",
    containerIDs := [], inspectResult := fun _ => .error "no such container" }

/-- A reachable host whose container listing fails. -/
def hostListFail : HostSpec :=
  { host := "ssh://user@box", dozzle := "", pingOk := true, pingErr := "",
    listOk := false, listErr := "list failed", containerIDs := [],
    inspectResult := fun _ => .error "no such container" }

/-- Container `abcdef123456` as reported by host `local`. -/
def cDupLocal : Container := mkContainer "abcdef123456" "web" "running" "local" 10

/-- The same raw 12-character ID reported by a second host. -/
def cDupRemote : Container :=
  mkContainer "abcdef123456" "worker" "running" "user@remote" 20

/-- Three running containers on two hosts whose names interleave the hosts
once sorted by name. -/
def rowHostA1 : row := newRow (mkContainer "000000000001" "alpha" "running" "hostA" 30)

/-- Second row, on the other host, name between the two `hostA` names. -/
def rowHostB2 : row := newRow (mkContainer "000000000002" "beta" "running" "hostB" 20)

/-- Third row, back on `hostA`. -/
def rowHostA3 : row := newRow (mkContainer "000000000003" "gamma" "running" "hostA" 10)

/-- A table of two rows with the cursor on the last row. -/
def tblDemo : TableModel Nat := { rows := [10, 20], cursor := 1 }

/-- A log line whose leading RFC 3339 timestamp is parseable but whose total
length is 30 bytes or less. -/
def lineShortTs : List Char := "2024-01-15T10:30:45Z hi".data

/-- An 8-byte Docker stream header for stdout (first byte `1`). -/
def hdr8 : List Char := Char.ofNat 1 :: List.replicate 7 (Char.ofNat 0)

/-- A demuxed payload longer than 30 bytes with a nano-precision
timestamp. -/
def restLong : List Char := "2024-01-15T10:30:45.123456789Z hello".data

/-- All-zero row stats: the state before any sample was observed
(`lastUpdate` is the zero time). -/
def rsFresh : RowStats :=
  { cpuPercent := 0, memPercent := 0, lastUpdate := 0,
    totalBytesReceived := 0, totalBytesSent := 0,
    bytesReceivedPerSecond := 0, bytesSentPerSecond := 0 }

/-- A log page scrolled 3 lines from the top of 12 lines in a 2-line-high
viewport (not at the bottom). -/
def logPageScrolled : LogPageModel :=
  { content := List.replicate 12 "line",
    viewport := { height := 2, yOffset := 3, lineCount := 12 } }

/-! ## Theorems -/

/-- **C1** (counterexample). The claim fixes the smoothing of all four
published metrics at `ema = 0.3 * inst + 0.7 * prev`. Applying the sample
`statGrow` to the row state `rsPrev` stores a CPU fraction and a receive
rate different from that blend: the CPU fraction is stored unsmoothed and
the network EMA uses new-value weight 0.75. -/
theorem c1_counterexample :
    (updateRowStats rsPrev statGrow).cpuPercent ≠
      3/10 * (statGrow.CPUPercent / 100) + 7/10 * rsPrev.cpuPercent ∧
    (updateRowStats rsPrev statGrow).bytesReceivedPerSecond ≠
      truncU64 (3/10 * (instRxRate rsPrev statGrow : ℚ) +
        7/10 * (rsPrev.bytesReceivedPerSecond : ℚ)) := by
  constructor
  · simp only [updateRowStats, rsPrev, statGrow, timeDelta]
    norm_num
  · simp only [updateRowStats, instRxRate, instTxRate, rsPrev, statGrow,
      u64sub, u64Mod, timeDelta, truncU64]
    norm_num
    decide

/-- **C1** (amended): for every sample applied to a row with a usable
baseline (`lastUpdate` non-zero, at least one whole elapsed second), the CPU
and memory fractions are stored directly (`value / 100`, no smoothing), and
the two network rates are exponentially smoothed with new-value weight
`alpha = 0.75`: `stored = trunc(0.75 * inst + 0.25 * prev)`. -/
theorem c1_theorem (rs : RowStats) (stat : ContainerStat)
    (hdt : 0 < timeDelta rs stat) (hlu : rs.lastUpdate ≠ 0) :
    (updateRowStats rs stat).cpuPercent = stat.CPUPercent / 100 ∧
    (updateRowStats rs stat).memPercent = stat.MemoryPercent / 100 ∧
    (updateRowStats rs stat).bytesReceivedPerSecond =
      truncU64 (3/4 * (instRxRate rs stat : ℚ) +
        (1 - 3/4) * (rs.bytesReceivedPerSecond : ℚ)) ∧
    (updateRowStats rs stat).bytesSentPerSecond =
      truncU64 (3/4 * (instTxRate rs stat : ℚ) +
        (1 - 3/4) * (rs.bytesSentPerSecond : ℚ)) := by
  simp only [updateRowStats, if_pos (And.intro hdt hlu)]
  norm_num

/-- **C1** (witness): `c1_theorem` applied to the concrete sample
`statGrow` over the state `rsPrev`. -/
theorem c1_witness :
    0 < timeDelta rsPrev statGrow ∧ rsPrev.lastUpdate ≠ 0 ∧
    ((updateRowStats rsPrev statGrow).cpuPercent = statGrow.CPUPercent / 100 ∧
     (updateRowStats rsPrev statGrow).memPercent = statGrow.MemoryPercent / 100 ∧
     (updateRowStats rsPrev statGrow).bytesReceivedPerSecond =
       truncU64 (3/4 * (instRxRate rsPrev statGrow : ℚ) +
         (1 - 3/4) * (rsPrev.bytesReceivedPerSecond : ℚ)) ∧
     (updateRowStats rsPrev statGrow).bytesSentPerSecond =
       truncU64 (3/4 * (instTxRate rsPrev statGrow : ℚ) +
         (1 - 3/4) * (rsPrev.bytesSentPerSecond : ℚ))) :=
  ⟨by decide, by decide, c1_theorem rsPrev statGrow (by decide) (by decide)⟩

/-- **C2** (counterexample). With a baseline of 1000 received bytes and a
regressed counter of 500 one second later, the instantaneous rate computed
by the code is the wrapped `uint64` difference `2^64 - 500` — not 0 — and
the published smoothed rate is astronomically large. -/
theorem c2_counterexample :
    instRxRate rsPrev statReset = 18446744073709551116 ∧
    (updateRowStats rsPrev statReset).bytesReceivedPerSecond =
      13835058055282163362 := by
  constructor
  · simp only [instRxRate, rsPrev, statReset, u64sub, u64Mod, timeDelta]
  · simp only [updateRowStats, instRxRate, instTxRate, rsPrev, statReset,
      u64sub, u64Mod, timeDelta, truncU64]
    norm_num
    omega

/-- **C2** (amended): when a cumulative network counter regresses
(`new < old`, both genuine `uint64` values) across a positive whole-second
delta, the instantaneous per-second rate is the wrapped difference
`(new + 2^64 - old) / delta` — a huge positive value, not 0 and not
negative. -/
theorem c2_theorem (rs : RowStats) (stat : ContainerStat) :
    (stat.TotalNetworkReceived < rs.totalBytesReceived →
      rs.totalBytesReceived < u64Mod →
      instRxRate rs stat =
        (stat.TotalNetworkReceived + u64Mod - rs.totalBytesReceived) /
          timeDelta rs stat) ∧
    (stat.TotalNetworkTransmitted < rs.totalBytesSent →
      rs.totalBytesSent < u64Mod →
      instTxRate rs stat =
        (stat.TotalNetworkTransmitted + u64Mod - rs.totalBytesSent) /
          timeDelta rs stat) := by
  constructor
  · intro hlt hb
    unfold instRxRate u64sub
    rw [Nat.mod_eq_of_lt hb, Nat.mod_eq_of_lt (by omega)]
    congr 1
    omega
  · intro hlt hb
    unfold instTxRate u64sub
    rw [Nat.mod_eq_of_lt hb, Nat.mod_eq_of_lt (by omega)]
    congr 1
    omega

/-- **C2** (witness): `c2_theorem` applied to the concrete regression
`statReset` over `rsPrev`. -/
theorem c2_witness :
    statReset.TotalNetworkReceived < rsPrev.totalBytesReceived ∧
    rsPrev.totalBytesReceived < u64Mod ∧
    instRxRate rsPrev statReset =
      (statReset.TotalNetworkReceived + u64Mod - rsPrev.totalBytesReceived) /
        timeDelta rsPrev statReset :=
  ⟨by decide, by decide,
    (c2_theorem rsPrev statReset).1 (by decide) (by decide)⟩

/-- **C10**: when no previous sample exists (`lastUpdate` is the zero time)
or the elapsed time truncates to zero whole seconds, the published
per-second rate fields are left unchanged; the raw baselines
(`totalBytesReceived`, `totalBytesSent`, `lastUpdate`) are overwritten by
every sample unconditionally. -/
theorem c10_theorem (rs : RowStats) (stat : ContainerStat) :
    ((rs.lastUpdate = 0 ∨ timeDelta rs stat = 0) →
      (updateRowStats rs stat).bytesReceivedPerSecond =
        rs.bytesReceivedPerSecond ∧
      (updateRowStats rs stat).bytesSentPerSecond = rs.bytesSentPerSecond) ∧
    (updateRowStats rs stat).totalBytesReceived =
      stat.TotalNetworkReceived ∧
    (updateRowStats rs stat).totalBytesSent =
      stat.TotalNetworkTransmitted ∧
    (updateRowStats rs stat).lastUpdate = stat.Time := by
  refine ⟨fun h => ?_, by simp [updateRowStats], by simp [updateRowStats],
    by simp [updateRowStats]⟩
  have hcond : ¬ (0 < timeDelta rs stat ∧ rs.lastUpdate ≠ 0) := by
    rcases h with h | h
    · exact fun hc => hc.2 h
    · exact fun hc => by omega
  simp [updateRowStats, if_neg hcond]

/-- **C10** (witness): `c10_theorem` on a fresh row (zero `lastUpdate`)
receiving its first sample. -/
theorem c10_witness :
    rsFresh.lastUpdate = 0 ∧
    (updateRowStats rsFresh statGrow).bytesReceivedPerSecond =
      rsFresh.bytesReceivedPerSecond ∧
    (updateRowStats rsFresh statGrow).lastUpdate = statGrow.Time :=
  ⟨rfl, ((c10_theorem rsFresh statGrow).1 (Or.inl rfl)).1,
    (c10_theorem rsFresh statGrow).2.2.2⟩

/-- **C3** (counterexample). The claim says a connection failure never
panics. `NewMultiClient` with one unreachable host panics with the ping
error (and, being the constructor, takes every other host down with it). -/
theorem c3_counterexample :
    NewMultiClient [hostUnreachable] = .panicked "connection refused" := by
  rfl

/-- **C3** (amended): connection failures are fatal, not converted to
events: a failed health check panics `NewMultiClient` (with the first
failing host's error), a failed container listing panics that host's
watcher goroutine, an error on the event subscription channel panics it
too; only an inspection error during event handling is swallowed
(`continue`). -/
theorem c3_theorem :
    (∀ (hosts : List HostSpec) (h : HostSpec),
      hosts.find? (fun x => !x.pingOk) = some h →
      NewMultiClient hosts = .panicked h.pingErr) ∧
    (∀ h : HostSpec, h.listOk = false →
      watchContainersSnapshot h = .panicked h.listErr) ∧
    (∀ (h : HostSpec) (e : String),
      watchContainersEventStep h (.errMsg e) = .panicked e) ∧
    (∀ (h : HostSpec) (id e : String), 0 < id.length →
      h.inspectResult id = .error e →
      watchContainersEventStep h (.containerEvent id) = .ok none) := by
  refine ⟨fun hosts h hfind => ?_, fun h hl => ?_, fun h e => rfl,
    fun h id e hlen herr => ?_⟩
  · unfold NewMultiClient
    rw [hfind]
  · unfold watchContainersSnapshot
    rw [hl]
    simp
  · simp only [watchContainersEventStep]
    rw [if_pos hlen, herr]

/-- **C3** (witness): `c3_theorem` applied to a host whose listing fails. -/
theorem c3_witness :
    hostListFail.listOk = false ∧
    watchContainersSnapshot hostListFail = .panicked hostListFail.listErr :=
  ⟨rfl, (c3_theorem).2.1 hostListFail rfl⟩

/-- Assigning the same Go map key twice keeps only the second value. -/
theorem mapAssign_mapAssign_same (rows : List (String × row)) (k : String)
    (v1 v2 : row) :
    mapAssign (mapAssign rows k v1) k v2 = mapAssign rows k v2 := by
  induction rows with
  | nil => simp [mapAssign]
  | cons kv rest ih =>
    by_cases hk : kv.1 = k
    · simp [mapAssign, hk]
    · simp [mapAssign, hk, ih]

/-- Updating all entries of a key commutes with `lookup` of that key. -/
theorem lookup_map_update (rows : List (String × row)) (k : String)
    (f : row → row) :
    (rows.map (fun kv => if kv.1 = k then (kv.1, f kv.2) else kv)).lookup k =
      (rows.lookup k).map f := by
  induction rows with
  | nil => simp
  | cons kv rest ih =>
    obtain ⟨k1, v1⟩ := kv
    by_cases hk : k1 = k
    · subst hk
      simp only [List.map_cons, if_pos rfl]
      simp [List.lookup, ih]
    · have hbeq : (k == k1) = false := by
        simp only [beq_eq_false_iff_ne, ne_eq]
        exact fun hkk => hk hkk.symm
      simp only [List.map_cons, if_neg hk]
      simp [List.lookup, hbeq, ih]

/-- Updating the entries of one key leaves `lookup` of every other key
unchanged. -/
theorem lookup_map_update_ne (rows : List (String × row)) (tkey k : String)
    (f : row → row) (hk : k ≠ tkey) :
    (rows.map
      (fun kv => if kv.1 = tkey then (kv.1, f kv.2) else kv)).lookup k =
      rows.lookup k := by
  induction rows with
  | nil => simp
  | cons kv rest ih =>
    obtain ⟨k1, v1⟩ := kv
    by_cases ht : k1 = tkey
    · subst ht
      have hbeq : (k == k1) = false := by
        simp only [beq_eq_false_iff_ne, ne_eq]
        exact hk
      simp only [List.map_cons, if_pos rfl]
      simp [List.lookup, hbeq, ih]
    · simp only [List.map_cons, if_neg ht]
      by_cases hkk : k = k1
      · subst hkk
        simp [List.lookup]
      · have hbeq : (k == k1) = false := by
          simp only [beq_eq_false_iff_ne, ne_eq]
          exact hkk
        simp [List.lookup, hbeq, ih]

/-- **C4** (counterexample). The claim keys the store by the composite
`(HostId, ContainerId)`. Inserting the same raw 12-character ID reported by
two different hosts into the empty store leaves one entry, not two. -/
theorem c4_counterexample :
    (applyContainers [] [cDupLocal, cDupRemote]).length = 1 ∧
    cDupLocal.ID = cDupRemote.ID ∧ cDupLocal.Host ≠ cDupRemote.Host := by
  constructor
  · rfl
  · constructor
    · rfl
    · decide

/-- **C4** (amended): the store is keyed by the bare container ID:
inserting two containers with the same raw ID (whatever their hosts)
collapses to the second insert alone; and a stats sample — which carries no
host — is applied to the entry whose key equals `stat.ID`, whichever host
that entry came from, while every other key is untouched. -/
theorem c4_theorem :
    (∀ (rows : List (String × row)) (c1 c2 : Container), c1.ID = c2.ID →
      applyContainers rows [c1, c2] = applyContainers rows [c2]) ∧
    (∀ (rows : List (String × row)) (stat : ContainerStat) (r : row),
      rows.lookup stat.ID = some r →
      (processTickStat rows stat).lookup stat.ID =
        some { r with stats := updateRowStats r.stats stat }) ∧
    (∀ (rows : List (String × row)) (stat : ContainerStat) (k : String),
      k ≠ stat.ID →
      (processTickStat rows stat).lookup k = rows.lookup k) := by
  refine ⟨fun rows c1 c2 hid => ?_, fun rows stat r hr => ?_,
    fun rows stat k hk => ?_⟩
  · simp only [applyContainers, List.foldl_cons, List.foldl_nil, hid]
    exact mapAssign_mapAssign_same rows c2.ID (newRow c1) (newRow c2)
  · unfold processTickStat
    rw [if_pos (by simp [hr])]
    rw [lookup_map_update rows stat.ID
      (fun r => { r with stats := updateRowStats r.stats stat }), hr]
    rfl
  · unfold processTickStat
    by_cases hs : (rows.lookup stat.ID).isSome
    · rw [if_pos hs]
      exact lookup_map_update_ne rows stat.ID k
        (fun r => { r with stats := updateRowStats r.stats stat }) hk
    · rw [if_neg hs]

/-- **C4** (witness): `c4_theorem` on a one-entry store hit by a matching
stat. -/
theorem c4_witness :
    cDupLocal.ID = cDupRemote.ID ∧
    applyContainers [] [cDupLocal, cDupRemote] =
      applyContainers [] [cDupRemote] ∧
    (applyContainers [] [cDupLocal]).lookup statGrow.ID =
      some (newRow cDupLocal) ∧
    (processTickStat (applyContainers [] [cDupLocal]) statGrow).lookup
        statGrow.ID =
      some { newRow cDupLocal with
               stats := updateRowStats (newRow cDupLocal).stats statGrow } :=
  ⟨rfl, (c4_theorem).1 [] cDupLocal cDupRemote rfl, rfl,
    (c4_theorem).2.1 (applyContainers [] [cDupLocal]) statGrow
      (newRow cDupLocal) rfl⟩

/-- The projection's comparator never reads the host field. -/
theorem lessRow_retagHost (sb : SortField) (asc : Bool) (f : String → String)
    (a b : row) :
    lessRow sb asc (retagHost f a) (retagHost f b) = lessRow sb asc a b := by
  cases sb <;> simp [lessRow, retagHost]

/-- The projection's filter never reads the host field. -/
theorem keepRow_retagHost (showAll : Bool) (f : String → String) (r : row) :
    keepRow showAll (retagHost f r) = keepRow showAll r := by
  simp [keepRow, retagHost]

/-- `filter` commutes with a map that preserves the predicate. -/
theorem filter_map_comm (g : row → row) (p : row → Bool)
    (hp : ∀ r, p (g r) = p r) (l : List row) :
    (l.map g).filter p = (l.filter p).map g := by
  induction l with
  | nil => rfl
  | cons a l ih =>
    by_cases ha : p a
    · simp [List.filter_cons, hp, ha, ih]
    · simp [List.filter_cons, hp, ha, ih]

/-- `orderedInsert` commutes with retagging hosts. -/
theorem orderedInsert_retagHost (sb : SortField) (asc : Bool)
    (f : String → String) (a : row) (l : List row) :
    List.orderedInsert (rowSortLe sb asc) (retagHost f a)
        (l.map (retagHost f)) =
      (List.orderedInsert (rowSortLe sb asc) a l).map (retagHost f) := by
  induction l with
  | nil => rfl
  | cons b l ih =>
    by_cases h : rowSortLe sb asc a b
    · have h' : rowSortLe sb asc (retagHost f a) (retagHost f b) := by
        unfold rowSortLe at h ⊢
        rw [lessRow_retagHost]
        exact h
      simp [List.orderedInsert, h, h']
    · have h' : ¬ rowSortLe sb asc (retagHost f a) (retagHost f b) := by
        unfold rowSortLe at h ⊢
        rw [lessRow_retagHost]
        exact h
      simp [List.orderedInsert, h, h', ih]

/-- `insertionSort` commutes with retagging hosts. -/
theorem insertionSort_retagHost (sb : SortField) (asc : Bool)
    (f : String → String) (l : List row) :
    List.insertionSort (rowSortLe sb asc) (l.map (retagHost f)) =
      (List.insertionSort (rowSortLe sb asc) l).map (retagHost f) := by
  induction l with
  | nil => rfl
  | cons a l ih =>
    simp only [List.map_cons, List.insertionSort, ih]
    exact orderedInsert_retagHost sb asc f a
      (List.insertionSort (rowSortLe sb asc) l)

/-- **C5** (counterexample). The claim groups every projection by host
before the active sort field. Sorting three running containers named
`alpha@hostA`, `beta@hostB`, `gamma@hostA` by name yields an order in which
`hostA`'s two rows are separated by the `hostB` row. -/
theorem c5_counterexample :
    hostsGrouped
      (updateInternalRows [rowHostA1, rowHostB2, rowHostA3]
        SortField.name false true) = false ∧
    rowHostA1.container.Host = rowHostA3.container.Host ∧
    rowHostA1.container.Host ≠ rowHostB2.container.Host := by
  refine ⟨by decide, rfl, by decide⟩

/-- **C5** (amended): the projection applies no host grouping at all — the
comparator reads only the active sort field (name+ID or creation time) and
the filter only the state, so the projection is invariant under arbitrary
reassignment of hosts, and rows sharing a host need not be contiguous. -/
theorem c5_theorem (f : String → String) (rows : List row) (sb : SortField)
    (asc showAll : Bool) :
    updateInternalRows (rows.map (retagHost f)) sb asc showAll =
      (updateInternalRows rows sb asc showAll).map (retagHost f) := by
  unfold updateInternalRows
  rw [filter_map_comm (retagHost f) (keepRow showAll)
    (keepRow_retagHost showAll f), insertionSort_retagHost]

/-- Splitting a list by a predicate preserves the total length. -/
theorem length_filter_add_length_filter_not (p : row → Bool) (l : List row) :
    (l.filter p).length + (l.filter (fun a => !(p a))).length = l.length := by
  induction l with
  | nil => rfl
  | cons a l ih =>
    by_cases ha : p a
    · simp [List.filter_cons, ha, ← ih]
      omega
    · simp [List.filter_cons, ha, ← ih]
      omega

/-- **C6**: with `show_all` off the projection holds exactly the stored rows
whose state is `"running"`; with it on, every stored row; and its length is
the store's length minus the number of filtered-out rows. -/
theorem c6_theorem (rows : List row) (sb : SortField) (asc showAll : Bool) :
    (∀ r : row, r ∈ updateInternalRows rows sb asc false ↔
      r ∈ rows ∧ r.container.State = "running") ∧
    (∀ r : row, r ∈ updateInternalRows rows sb asc true ↔ r ∈ rows) ∧
    (updateInternalRows rows sb asc showAll).length =
      rows.length - (rows.filter (fun r => !(keepRow showAll r))).length := by
  refine ⟨fun r => ?_, fun r => ?_, ?_⟩
  · rw [updateInternalRows, (List.perm_insertionSort (rowSortLe sb asc)
      (rows.filter (keepRow false))).mem_iff, List.mem_filter]
    simp [keepRow]
  · rw [updateInternalRows, (List.perm_insertionSort (rowSortLe sb asc)
      (rows.filter (keepRow true))).mem_iff, List.mem_filter]
    simp [keepRow]
  · rw [updateInternalRows, (List.perm_insertionSort (rowSortLe sb asc)
      (rows.filter (keepRow showAll))).length_eq]
    have h := length_filter_add_length_filter_not (keepRow showAll) rows
    omega

/-- **C6** (witness): `c6_theorem` on the three-row store with `show_all`
off. -/
theorem c6_witness :
    rowHostA1 ∈ updateInternalRows [rowHostA1, rowHostB2, rowHostA3]
      SortField.name false false ↔
    rowHostA1 ∈ [rowHostA1, rowHostB2, rowHostA3] ∧
      rowHostA1.container.State = "running" :=
  (c6_theorem [rowHostA1, rowHostB2, rowHostA3] SortField.name false
    false).1 rowHostA1

/-- **C7** (counterexample). The claim clamps the cursor after every table
operation, including `SetRows`. Replacing the two rows of a table whose
cursor sits on index 1 by a single row leaves the cursor at 1, outside
`[0, 1)` — indexing `Rows()[Cursor()]` there is out of bounds. -/
theorem c7_counterexample :
    cursorOK tblDemo ∧ ¬ cursorOK (tblSetRows tblDemo [10]) := by
  constructor
  · decide
  · decide

/-- **C7** (amended): `MoveUp`, `MoveDown` and `SetCursor` do clamp the
cursor into `[0, len)` (or to `-1` when the row list is empty), from any
starting state; but `SetRows` replaces the rows leaving the cursor
untouched, so row replacement can leave the cursor out of bounds. -/
theorem c7_theorem (α : Type) (m : TableModel α) (n : Int) (r : List α) :
    cursorOK (tblSetCursor m n) ∧ cursorOK (tblMoveUp m n) ∧
    cursorOK (tblMoveDown m n) ∧ (tblSetRows m r).cursor = m.cursor := by
  refine ⟨?_, ?_, ?_, rfl⟩ <;>
    simp only [cursorOK, tblSetCursor, tblMoveUp, tblMoveDown, clamp] <;>
    split <;> omega

/-- Demuxing a line made of an 8-byte header starting with stream byte 1
followed by a non-empty payload: stdout, header stripped. -/
theorem demuxLine_header1 (hdr rest : List Char) (c : Char)
    (h8 : hdr.length = 8) (hhd : hdr.head? = some c) (hc : c.toNat = 1)
    (hrest : rest ≠ []) : demuxLine (hdr ++ rest) = ("stdout", rest) := by
  cases hdr with
  | nil => simp at h8
  | cons a hdr' =>
    have hac : a = c := by simpa using hhd
    have ha : a.toNat = 1 := by rw [hac]; exact hc
    have h7 : hdr'.length = 7 := by simpa using h8
    have hx : 0 < rest.length := List.length_pos.mpr hrest
    have hlen : 8 < ((a :: hdr') ++ rest).length := by
      simp only [List.cons_append, List.length_cons, List.length_append, h7]
      omega
    unfold demuxLine
    rw [if_pos hlen]
    simp only [List.cons_append, List.head?_cons, ha, if_pos rfl]
    rw [show (8 : Nat) = hdr'.length + 1 by omega]
    simp [List.drop_succ_cons, List.drop_left]

/-- Demuxing with stream byte 2: stderr, header stripped. -/
theorem demuxLine_header2 (hdr rest : List Char) (c : Char)
    (h8 : hdr.length = 8) (hhd : hdr.head? = some c) (hc : c.toNat = 2)
    (hrest : rest ≠ []) : demuxLine (hdr ++ rest) = ("stderr", rest) := by
  cases hdr with
  | nil => simp at h8
  | cons a hdr' =>
    have hac : a = c := by simpa using hhd
    have ha : a.toNat = 2 := by rw [hac]; exact hc
    have ha1 : ¬ a.toNat = 1 := by omega
    have h7 : hdr'.length = 7 := by simpa using h8
    have hx : 0 < rest.length := List.length_pos.mpr hrest
    have hlen : 8 < ((a :: hdr') ++ rest).length := by
      simp only [List.cons_append, List.length_cons, List.length_append, h7]
      omega
    unfold demuxLine
    rw [if_pos hlen]
    simp only [List.cons_append, List.head?_cons, ha, ha1, if_neg, if_pos rfl]
    rw [show (8 : Nat) = hdr'.length + 1 by omega]
    simp [List.drop_succ_cons, List.drop_left]

/-- A non-empty line is emitted as an entry built from the demux and the
timestamp block. -/
theorem streamLogsLine_eq (cid : String) (line : List Char)
    (h : line ≠ []) :
    streamLogsLine cid line =
      some { ContainerID := cid,
             Message := (parseLineTimestamp (demuxLine line).2).2,
             Timestamp := (parseLineTimestamp (demuxLine line).2).1,
             Stream := (demuxLine line).1 } := by
  unfold streamLogsLine
  rw [if_neg (by simpa using h)]

/-- **C8** (counterexample). The claim stores and strips every parseable
leading RFC 3339 timestamp. The line `2024-01-15T10:30:45Z hi` (23 bytes)
carries a parseable leading timestamp, yet the emitted entry has no
timestamp and the full line as message, because the code only attempts the
parse on messages longer than 30 bytes. -/
theorem c8_counterexample :
    goParseRFC3339Nano ("2024-01-15T10:30:45Z".data) =
      some { year := 2024, month := 1, day := 15, hour := 10, minute := 30,
             second := 45, nanos := 0, offsetMinutes := 0 } ∧
    streamLogsLine "abc123def456" lineShortTs =
      some { ContainerID := "abc123def456", Message := lineShortTs,
             Timestamp := none, Stream := "stdout" } :=
  ⟨by decide, by decide⟩

/-- **C8** (amended): the stream is opened with options
`{stdout, stderr, follow, timestamps, tail = "100"}`; empty lines are
skipped; a line of an 8-byte header with first byte 1 (resp. 2) and a
non-empty payload is demuxed to stdout (resp. stderr) with the header
stripped; the leading-timestamp parse is attempted only when the demuxed
message is longer than 30 bytes and has a space at a positive index, and
then a parseable prefix is stored separately and stripped; otherwise the
timestamp stays embedded in the message and the entry carries none. The
entry identifies its container by bare ID. -/
theorem c8_theorem :
    streamLogsOptions =
      { ShowStdout := true, ShowStderr := true, Follow := true,
        Timestamps := true, Tail := "100" } ∧
    (∀ cid : String, streamLogsLine cid [] = none) ∧
    (∀ (cid : String) (hdr rest : List Char) (c : Char), hdr.length = 8 →
      hdr.head? = some c → c.toNat = 1 → rest ≠ [] →
      streamLogsLine cid (hdr ++ rest) =
        some { ContainerID := cid, Message := (parseLineTimestamp rest).2,
               Timestamp := (parseLineTimestamp rest).1,
               Stream := "stdout" }) ∧
    (∀ (cid : String) (hdr rest : List Char) (c : Char), hdr.length = 8 →
      hdr.head? = some c → c.toNat = 2 → rest ≠ [] →
      streamLogsLine cid (hdr ++ rest) =
        some { ContainerID := cid, Message := (parseLineTimestamp rest).2,
               Timestamp := (parseLineTimestamp rest).1,
               Stream := "stderr" }) ∧
    (∀ (msg : List Char) (i : Nat) (t : ParsedTime), 30 < msg.length →
      msg.findIdx? (fun c => c = ' ') = some i → 0 < i →
      goParseRFC3339Nano (msg.take i) = some t →
      parseLineTimestamp msg = (some t, msg.drop (i + 1))) ∧
    (∀ msg : List Char, msg.length ≤ 30 →
      parseLineTimestamp msg = (none, msg)) := by
  refine ⟨rfl, fun cid => rfl,
    fun cid hdr rest c h8 hhd hc hrest => ?_,
    fun cid hdr rest c h8 hhd hc hrest => ?_,
    fun msg i t h30 hfind hi hparse => ?_, fun msg h30 => ?_⟩
  · rw [streamLogsLine_eq cid (hdr ++ rest)
      (by have := List.length_pos.mpr hrest
          simp only [← List.length_pos, List.length_append]
          omega),
      demuxLine_header1 hdr rest c h8 hhd hc hrest]
  · rw [streamLogsLine_eq cid (hdr ++ rest)
      (by have := List.length_pos.mpr hrest
          simp only [← List.length_pos, List.length_append]
          omega),
      demuxLine_header2 hdr rest c h8 hhd hc hrest]
  · unfold parseLineTimestamp
    rw [if_pos h30, hfind]
    simp only [if_pos hi, hparse]
  · unfold parseLineTimestamp
    rw [if_neg (by omega)]

/-- **C8** (witness): `c8_theorem`'s stdout-demux clause applied to a
concrete framed line with a nano-precision timestamp payload. -/
theorem c8_witness :
    hdr8.length = 8 ∧ hdr8.head? = some (Char.ofNat 1) ∧
    (Char.ofNat 1).toNat = 1 ∧ restLong ≠ [] ∧
    streamLogsLine "abc123def456" (hdr8 ++ restLong) =
      some { ContainerID := "abc123def456",
             Message := (parseLineTimestamp restLong).2,
             Timestamp := (parseLineTimestamp restLong).1,
             Stream := "stdout" } :=
  ⟨by decide, by decide, by decide, by decide,
    (c8_theorem).2.2.1 "abc123def456" hdr8 restLong (Char.ofNat 1)
      (by decide) (by decide) (by decide) (by decide)⟩

/-- After `GotoBottom` the offset sits at the maximal offset and the
viewport reports being at the bottom. -/
theorem gotoBottom_spec (v : GoViewport) :
    (gotoBottom v).yOffset = maxYOffset (gotoBottom v) ∧
    atBottom (gotoBottom v) = true := by
  unfold gotoBottom setYOffset atBottom maxYOffset
  simp

/-- Appending a line to a log page that is scrolled away from the bottom:
the offset, the not-at-bottom state, the content/viewport sync, and the
height are all preserved. -/
theorem logPageUpdate_not_atBottom (m : LogPageModel) (msg : String)
    (hsync : m.viewport.lineCount = m.content.length)
    (hb : atBottom m.viewport = false) :
    (logPageUpdate m msg).viewport.yOffset = m.viewport.yOffset ∧
    atBottom (logPageUpdate m msg).viewport = false ∧
    (logPageUpdate m msg).viewport.lineCount =
      (logPageUpdate m msg).content.length ∧
    (logPageUpdate m msg).viewport.height = m.viewport.height := by
  have hb' : m.viewport.lineCount - m.viewport.height > m.viewport.yOffset := by
    have h := hb
    unfold atBottom maxYOffset at h
    simp only [decide_eq_false_iff_not, not_le] at h
    omega
  have hnc : ¬ ((m.content ++ [msg]).length - 1 < m.viewport.yOffset) := by
    simp only [List.length_append, List.length_cons, List.length_nil]
    omega
  simp only [logPageUpdate, vpSetContent, gotoBottom, setYOffset, maxYOffset,
    hb, Bool.false_eq_true, if_false, if_neg hnc]
  refine ⟨by trivial, ?_, by simp, by trivial⟩
  unfold atBottom maxYOffset
  simp only [decide_eq_false_iff_not, not_le, List.length_append,
    List.length_cons, List.length_nil]
  omega

/-- **C9**: a new log line moves the viewport to the bottom iff the
viewport was at the bottom before it was appended; once scrolled away, any
number of further lines leave the offset untouched. -/
theorem c9_theorem (m : LogPageModel) (msg : String)
    (hsync : m.viewport.lineCount = m.content.length) :
    (atBottom m.viewport = true →
      (logPageUpdate m msg).viewport.yOffset =
        maxYOffset (logPageUpdate m msg).viewport ∧
      atBottom (logPageUpdate m msg).viewport = true) ∧
    (atBottom m.viewport = false →
      (logPageUpdate m msg).viewport.yOffset = m.viewport.yOffset ∧
      atBottom (logPageUpdate m msg).viewport = false) ∧
    (∀ msgs : List String, atBottom m.viewport = false →
      (msgs.foldl logPageUpdate m).viewport.yOffset =
        m.viewport.yOffset) := by
  refine ⟨fun hb => ?_, fun hb => ?_, fun msgs => ?_⟩
  · have hv : (logPageUpdate m msg).viewport =
        gotoBottom (vpSetContent m.viewport (m.content ++ [msg]).length) := by
      simp [logPageUpdate, hb]
    rw [hv]
    exact gotoBottom_spec _
  · exact ⟨(logPageUpdate_not_atBottom m msg hsync hb).1,
      (logPageUpdate_not_atBottom m msg hsync hb).2.1⟩
  · clear msg
    induction msgs generalizing m with
    | nil => exact fun _ => rfl
    | cons msg rest ih =>
      intro hb
      obtain ⟨h1, h2, h3, _⟩ := logPageUpdate_not_atBottom m msg hsync hb
      rw [List.foldl_cons, ih (logPageUpdate m msg) h3 h2, h1]

/-- **C9** (witness): `c9_theorem` on a 12-line log page scrolled 3 lines
from the top of a 2-line-high viewport. -/
theorem c9_witness :
    logPageScrolled.viewport.lineCount = logPageScrolled.content.length ∧
    atBottom logPageScrolled.viewport = false ∧
    (logPageUpdate logPageScrolled "next line").viewport.yOffset =
      logPageScrolled.viewport.yOffset :=
  ⟨by decide, by decide,
    ((c9_theorem logPageScrolled "next line" (by decide)).2.1 (by decide)).1⟩
